import Mathlib

/-!
Verification development for the CEG repository (cold-email generator).

The Python sources `chains.py` and `app.py` are shallowly embedded below:
pure helpers become Lean functions; the provider fallback loops and the
retry wrapper become explicit recursive functions instrumented with the
observable events they produce (invocations, sleeps, number of attempts);
the external LLM clients and the JSON output parser are abstracted as
function parameters (an attempt's behaviour is a map from try-index to
either a raw string result or an error message).
-/

/-- Case check for one ASCII character, mirroring Python `str.lower` on the
ASCII range used by the error-marker comparison in `_invoke_with_retry`. -/
def lowerChar (c : Char) : Char := c.toLower

/-- Lowercasing of a string, mirroring Python `str.lower()` (ASCII model). -/
def lowerStr (s : String) : String := ⟨s.data.map lowerChar⟩

/-- Boolean test that the first list is an initial segment of the second. -/
def leadsWith : List Char → List Char → Bool
  | [], _ => true
  | _ :: _, [] => false
  | a :: as, b :: bs => a == b && leadsWith as bs

/-- Boolean substring containment on character lists, mirroring Python
`needle in haystack`. -/
def containsSub (needle : List Char) : List Char → Bool
  | [] => leadsWith needle []
  | c :: t => leadsWith needle (c :: t) || containsSub needle t

/-- Substring containment on strings, mirroring Python `k in msg`. -/
def strContains (haystack needle : String) : Bool :=
  containsSub needle.data haystack.data

/-- The fixed transient-error markers of `_invoke_with_retry`
(`chains.py` line 67). -/
def transientMarkers : List String :=
  ["429", "rate limit", "quota", "exceeded", "temporarily"]

/-- Classification of an error message as transient, mirroring
`any(k in msg for k in (...))` over the lowercased message
(`chains.py` lines 65-67). -/
def isTransientMsg (msg : String) : Bool :=
  transientMarkers.any (fun k => strContains (lowerStr msg) k)

/-- Observable events of one `_invoke_with_retry` call: an invocation of the
underlying chain (with its try index) or a backoff sleep (seconds). -/
inductive RetryEvent where
  | tryCall (i : Nat)
  | sleep (sec : Nat)
deriving DecidableEq

/-- Result of `_invoke_with_retry`: the returned value or raised error,
together with the ordered list of observable events. -/
structure RetryTrace (α : Type) where
  result : Except String α
  events : List RetryEvent

/-- Loop body of `_invoke_with_retry` (`chains.py` lines 59-71): iterate over
the remaining try indices (Python `for _ in range(retries + 1)`); on success
return; on a transient error sleep `backoff` and continue, remembering the
error; on any other error raise it at once; when the indices run out raise
the last remembered error. -/
def invoke_with_retry_go (invoke : Nat → Except String α) (backoff : Nat) :
    List Nat → List RetryEvent → Option String → RetryTrace α
  | [], evs, lastErr => ⟨Except.error (lastErr.getD ""), evs⟩
  | i :: rest, evs, _ =>
    match invoke i with
    | Except.ok a => ⟨Except.ok a, evs ++ [RetryEvent.tryCall i]⟩
    | Except.error e =>
      if isTransientMsg e then
        invoke_with_retry_go invoke backoff rest
          (evs ++ [RetryEvent.tryCall i, RetryEvent.sleep backoff]) (some e)
      else
        ⟨Except.error e, evs ++ [RetryEvent.tryCall i]⟩

/-- Model of `_invoke_with_retry(chain, payload, retries, backoff_sec)`
(`chains.py` lines 59-71). The underlying `chain.invoke(payload)` is
abstracted as `invoke`, a map from try index to outcome; the 3.0-second
float backoff is modelled as the natural number of seconds. -/
def invoke_with_retry (invoke : Nat → Except String α) (retries backoff : Nat) :
    RetryTrace α :=
  invoke_with_retry_go invoke backoff (List.range (retries + 1)) [] none

/-- Number of invocation events in a retry trace. -/
def countTryEvents (evs : List RetryEvent) : Nat :=
  (evs.filter (fun e => match e with | RetryEvent.tryCall _ => true | _ => false)).length

/-- JSON values, as produced by the external `JsonOutputParser` when it
succeeds (`chains.py` line 124). -/
inductive Json where
  | obj : List (String × Json) → Json
  | arr : List Json → Json
  | str : String → Json
  | num : Int → Json
  | bool : Bool → Json
  | null : Json

/-- Coercion of the parsed JSON value into a list of records, mirroring
`parsed if isinstance(parsed, list) else [parsed]` (`chains.py` line 125). -/
def json_to_list : Json → List Json
  | Json.arr l => l
  | j => [j]

/-- One extraction attempt (`chains.py` lines 119-125): run the prompt/LLM
chain through `_invoke_with_retry` with `retries = 1`, then parse the
content with the JSON output parser and coerce to a list. Both the raw
invocation behaviour and the external parser are abstracted as functions;
any failure (retry exhaustion, non-transient error, or parse failure) is
the attempt's error. -/
def runAttempt (parse : String → Except String Json)
    (invoke : Nat → Except String String) : Except String (List Json) :=
  match (invoke_with_retry invoke 1 3).result with
  | Except.error e => Except.error e
  | Except.ok content =>
    match parse content with
    | Except.error e => Except.error e
    | Except.ok j => Except.ok (json_to_list j)

/-- Result of a provider fallback loop: the final outcome together with the
number of attempts that were started. -/
structure FallbackTrace (β : Type) where
  result : Except String β
  attemptsMade : Nat

/-- The provider fallback loop shared by `Chain.extract_jobs`
(`chains.py` lines 117-130) and `Chain.write_mail` (lines 161-172): try
each attempt in order; return the first success at once; on failure
remember the error and continue; when the attempts run out raise the last
error, or the default `RuntimeError` message when there was none. -/
def fallback_loop (dflt : String) (f : α → Except String β) :
    List α → Option String → FallbackTrace β
  | [], lastErr => ⟨Except.error (lastErr.getD dflt), 0⟩
  | a :: rest, _ =>
    match f a with
    | Except.ok r => ⟨Except.ok r, 1⟩
    | Except.error e =>
      let t := fallback_loop dflt f rest (some e)
      ⟨t.result, t.attemptsMade + 1⟩

/-- Model of `Chain.extract_jobs` over an abstract attempt list
(`chains.py` lines 117-130): each attempt is represented by its invocation
behaviour, and the external JSON parser by `parse`. -/
def extract_jobs (parse : String → Except String Json)
    (invokes : List (Nat → Except String String)) : FallbackTrace (List Json) :=
  fallback_loop "Extraction failed on all providers." (runAttempt parse) invokes none

/-- Model of `Chain.write_mail` over an abstract attempt list
(`chains.py` lines 161-172): the first successful raw content is returned
as the email text. -/
def write_mail (invokes : List (Nat → Except String String)) : FallbackTrace String :=
  fallback_loop "Email writing failed on all providers."
    (fun invoke => (invoke_with_retry invoke 1 3).result) invokes none

/-- Credential environment read by `Chain.__init__` via `_get_secret`
(`chains.py` lines 83-87); the empty string models an unset slot, matching
the Python truthiness checks. -/
structure Env where
  GROQ_API_KEY : String
  GROQ_API_KEY_FAST : String
  GROQ_API_KEY_HEAVY : String
  GEMINI_API_KEY : String

/-- Python `a or b` on credential strings (empty means falsy). -/
def pyOrStr (a b : String) : String := if a == "" then b else a

/-- The credential and model-name state of a constructed `Chain`
(`chains.py` lines 83-95). -/
structure Chain where
  fast_key : String
  heavy_key : String
  gemini_key : String
  fast_model : String
  heavy_model : String
  gemini_model : String

/-- Model of `Chain.__init__` (`chains.py` lines 83-95): resolve the fast
and heavy keys with fallback to the base key, keep the Gemini key, and
fail with the no-credentials `ValueError` when none of the resolved keys is
set. No network call occurs here; construction is pure. -/
def Chain.init (env : Env) : Except String Chain :=
  let base_key := env.GROQ_API_KEY
  let fast_key := pyOrStr env.GROQ_API_KEY_FAST base_key
  let heavy_key := pyOrStr env.GROQ_API_KEY_HEAVY base_key
  let gemini_key := env.GEMINI_API_KEY
  if fast_key == "" && heavy_key == "" && gemini_key == "" then
    Except.error "No API key found. Add GROQ_API_KEY or GEMINI_API_KEY in secrets or .env"
  else
    Except.ok { fast_key := fast_key, heavy_key := heavy_key, gemini_key := gemini_key,
                fast_model := "llama-3.1-8b-instant",
                heavy_model := "llama-3.3-70b-versatile",
                gemini_model := "gemini-1.5-flash" }

/-- Provider kinds appearing in the attempt tuples of `chains.py`. -/
inductive Provider where
  | groq
  | gemini
deriving DecidableEq, BEq

/-- Attempt list built by `Chain.extract_jobs` (`chains.py` lines 109-115):
fast model first, then heavy model, then Gemini when its key and the
optional package are both available. -/
def extract_attempts (c : Chain) (hasGemini : Bool) : List (Provider × String × String) :=
  (if c.fast_key != "" then [(Provider.groq, c.fast_key, c.fast_model)] else []) ++
  (if c.heavy_key != "" then [(Provider.groq, c.heavy_key, c.heavy_model)] else []) ++
  (if c.gemini_key != "" && hasGemini then
    [(Provider.gemini, c.gemini_key, c.gemini_model)] else [])

/-- Attempt list built by `Chain.write_mail` (`chains.py` lines 153-159):
heavy model first, then fast model, then Gemini when its key and the
optional package are both available. -/
def write_mail_attempts (c : Chain) (hasGemini : Bool) : List (Provider × String × String) :=
  (if c.heavy_key != "" then [(Provider.groq, c.heavy_key, c.heavy_model)] else []) ++
  (if c.fast_key != "" then [(Provider.groq, c.fast_key, c.fast_model)] else []) ++
  (if c.gemini_key != "" && hasGemini then
    [(Provider.gemini, c.gemini_key, c.gemini_model)] else [])

/-- Whitespace characters stripped by Python `str.strip()` (ASCII model:
space, tab, newline, carriage return, vertical tab, form feed). -/
def isSpaceChar (c : Char) : Bool :=
  c == ' ' || c == '\t' || c == '\n' || c == '\r' ||
  c == Char.ofNat 11 || c == Char.ofNat 12

/-- Strip whitespace from both ends of a character list. -/
def stripChars (l : List Char) : List Char :=
  ((l.dropWhile isSpaceChar).reverse.dropWhile isSpaceChar).reverse

/-- Model of Python `str.strip()`. -/
def pyStrip (s : String) : String := ⟨stripChars s.data⟩

/-- Decimal digit character. -/
def digitChar (d : Nat) : Char := Char.ofNat (48 + d)

/-- Decimal digits of a natural number, most significant first; `fuel`
bounds the recursion and any `fuel ≥ n` is enough. -/
def natDigitsAux : Nat → Nat → List Char
  | 0, _ => []
  | fuel + 1, n =>
    if n = 0 then [] else natDigitsAux fuel (n / 10) ++ [digitChar (n % 10)]

/-- Decimal rendering of a natural number, as Python `str` does. -/
def natStr (n : Nat) : String :=
  if n = 0 then "0" else ⟨natDigitsAux n n⟩

/-- Decimal rendering of an integer, as Python `str` does. -/
def intStr : Int → String
  | Int.ofNat n => natStr n
  | Int.negSucc n => "-" ++ natStr (n + 1)

/-- Python values that can reach `normalize_skills` and the job dicts of
`app.py`: strings, lists, integers, booleans and `None`. -/
inductive PyVal where
  | str : String → PyVal
  | list : List PyVal → PyVal
  | int : Int → PyVal
  | bool : Bool → PyVal
  | none : PyVal

mutual

/-- Python `repr` of a value (string escaping inside quotes is not
modelled; only the bracketed shape of lists matters here). -/
def pyRepr : PyVal → String
  | PyVal.str s => "\x27" ++ s ++ "\x27"
  | PyVal.int n => intStr n
  | PyVal.bool b => if b then "True" else "False"
  | PyVal.none => "None"
  | PyVal.list l => "[" ++ pyReprList l ++ "]"

/-- Comma-separated `repr` of list elements, as Python renders lists. -/
def pyReprList : List PyVal → String
  | [] => ""
  | [x] => pyRepr x
  | x :: xs => pyRepr x ++ ", " ++ pyReprList xs

end

/-- Python `str()` of a value: the identity on strings, `repr`-like
otherwise. -/
def pyStr : PyVal → String
  | PyVal.str s => s
  | v => pyRepr v

/-- Split a character list at every comma, mirroring Python
`s.split(",")`. -/
def splitOnCommaAux : List Char → List Char → List (List Char)
  | [], acc => [acc.reverse]
  | c :: cs, acc =>
    if c = ',' then acc.reverse :: splitOnCommaAux cs []
    else splitOnCommaAux cs (c :: acc)

/-- Model of Python `s.split(",")`. -/
def pySplitComma (s : String) : List String :=
  (splitOnCommaAux s.data []).map (fun l => ⟨l⟩)

/-- Model of `normalize_skills` (`app.py` lines 24-29): a comma-separated
string becomes the list of its stripped non-empty pieces; a list becomes
the stripped non-empty `str()` of its elements; anything else becomes the
one-element list of its `str()`. -/
def normalize_skills : PyVal → List String
  | PyVal.str s => ((pySplitComma s).map pyStrip).filter (fun t => !(t == ""))
  | PyVal.list l => (l.map (fun x => pyStrip (pyStr x))).filter (fun t => !(t == ""))
  | v => [pyStr v]

/-- Python dicts of `app.py`, modelled as association lists; lookups take
the first matching key. -/
def PyDict : Type := List (String × PyVal)

/-- Python `d.get(k)` (`None`-free model: absence is `Option.none`). -/
def dictGet (d : PyDict) (k : String) : Option PyVal :=
  match List.find? (fun p => p.1 == k) d with
  | some p => some p.2
  | Option.none => Option.none

/-- Python `d.get(k, dflt)`. -/
def dictGetD (d : PyDict) (k : String) (dflt : PyVal) : PyVal :=
  (dictGet d k).getD dflt

/-- Functional update of a dict key, as `{**d, k: v}` produces. -/
def dictSet (d : PyDict) (k : String) (v : PyVal) : PyDict :=
  (k, v) :: List.filter (fun p => !(p.1 == k)) d

/-- The dict passed to `chain.write_mail`, mirroring
`job_with_prefs = {**job, "tone": tone, "cta": cta}` (`app.py` line 92):
the raw extracted job with only `tone` and `cta` added. -/
def mailInput (tone cta : String) (job : PyDict) : PyDict :=
  dictSet (dictSet job "tone" (PyVal.str tone)) "cta" (PyVal.str cta)

/-- One entry of the `results` array built by `generate`
(`app.py` lines 95-102). -/
structure ResultRecord where
  role : PyVal
  description : PyVal
  experience : PyVal
  skills : List String
  email_markdown : String
  download_name : String

/-- Per-job processing of `generate` (`app.py` lines 86-102): defaults are
read into the result record, and the email is produced from the raw job
merged with the tone and the call-to-action. The email step is abstracted
as `wm`, the generated filename as `dn`. -/
def mkResultRecord (tone cta : String) (wm : PyDict → String) (dn : String)
    (job : PyDict) : ResultRecord :=
  { role := dictGetD job "role" (PyVal.str "Software Engineer"),
    description := dictGetD job "description" (PyVal.str ""),
    experience := dictGetD job "experience" (PyVal.str "N/A"),
    skills := normalize_skills (dictGetD job "skills" (PyVal.list [])),
    email_markdown := wm (mailInput tone cta job),
    download_name := dn }

/-- The 200 response of `POST /generate` (`app.py` lines 104-108). -/
structure GenerateResponse where
  url : String
  count : Nat
  results : List ResultRecord

/-- Python `jobs = chain.extract_jobs(text) or []` (`app.py` line 83):
`None` and the empty list both give the empty list. -/
def pyOrJobs (x : Option (List PyDict)) : List PyDict :=
  match x with
  | Option.none => []
  | some l => if l.isEmpty then [] else l

/-- The success path of `generate` (`app.py` lines 83-108), after fetch and
extraction: one result record per extracted job, and `count` set to the
length of `results`. -/
def generate200 (url tone cta : String) (extracted : Option (List PyDict))
    (wm : PyDict → String) (dn : String) : GenerateResponse :=
  let jobs := pyOrJobs extracted
  let results := jobs.map (mkResultRecord tone cta wm dn)
  { url := url, count := results.length, results := results }

/-- The JSON request body of `POST /generate` (`app.py` lines 70-73),
restricted to the string-typed fields the handler reads. -/
structure RequestBody where
  url : Option String
  tone : Option String
  cta : Option String

/-- Python `x or dflt` on an optional string (`None` and `""` are falsy). -/
def pyOrOpt (x : Option String) (dflt : String) : String :=
  match x with
  | Option.none => dflt
  | some s => if s == "" then dflt else s

/-- Model of `URL_RE.match(url)` with `URL_RE = ^https?://` compiled
case-insensitively (`app.py` line 18). -/
def URL_RE_match (s : String) : Bool :=
  leadsWith "http://".data (lowerStr s).data ||
  leadsWith "https://".data (lowerStr s).data

/-- Outcome of the validation prologue of `generate`: either the 400
response or the values with which the fetch/extract/email pipeline
proceeds. -/
inductive GenOutcome where
  | badRequest (error : String)
  | proceed (url tone cta : String)

/-- The validation prologue of `generate` (`app.py` lines 70-76): read and
strip the url, default the tone and the call-to-action, and answer 400
before any fetch, extraction or email step when the stripped url is empty
or fails the scheme check. -/
def generateDispatch (body : RequestBody) : GenOutcome :=
  let url := pyStrip (pyOrOpt body.url "")
  let tone := pyOrOpt body.tone "Confident"
  let cta := pyOrOpt body.cta "Request an Interview"
  if url == "" || !(URL_RE_match url) then
    GenOutcome.badRequest "Provide a valid http(s) URL in \x27url\x27."
  else
    GenOutcome.proceed url tone cta

/-- C1: for one provider attempt, `_invoke_with_retry` with `retries = 1`
makes at most 2 total tries; a second try happens exactly when the first
raised error's lowercased message contains one of the fixed markers, and is
preceded by a 3-second sleep; a non-matching error aborts immediately with
no retry and no sleep; when both tries fail the second error is the
attempt's failure. Concrete anchors: a "Rate Limit" message qualifies, an
"invalid api key" message does not. -/
theorem C1_retry_policy (α : Type) (invoke : Nat → Except String α) :
    countTryEvents (invoke_with_retry invoke 1 3).events ≤ 2 ∧
    (∀ a, invoke 0 = Except.ok a →
      (invoke_with_retry invoke 1 3).result = Except.ok a ∧
      (invoke_with_retry invoke 1 3).events = [RetryEvent.tryCall 0]) ∧
    (∀ e, invoke 0 = Except.error e → isTransientMsg e = false →
      (invoke_with_retry invoke 1 3).result = Except.error e ∧
      (invoke_with_retry invoke 1 3).events = [RetryEvent.tryCall 0]) ∧
    (∀ e, invoke 0 = Except.error e → isTransientMsg e = true →
      (∃ rest, (invoke_with_retry invoke 1 3).events =
        RetryEvent.tryCall 0 :: RetryEvent.sleep 3 :: RetryEvent.tryCall 1 :: rest) ∧
      (∀ a, invoke 1 = Except.ok a →
        (invoke_with_retry invoke 1 3).result = Except.ok a) ∧
      (∀ e1, invoke 1 = Except.error e1 →
        (invoke_with_retry invoke 1 3).result = Except.error e1)) ∧
    isTransientMsg "Rate Limit reached" = true ∧
    isTransientMsg "invalid api key" = false := by
  have hrange : List.range 2 = [0, 1] := by decide
  refine ⟨?_, ?_, ?_, ?_, by decide, by decide⟩
  · unfold invoke_with_retry
    rw [hrange]
    unfold invoke_with_retry_go
    cases h0 : invoke 0 with
    | ok a => simp [countTryEvents]
    | error e =>
      by_cases ht : isTransientMsg e
      · simp only [ht, if_true]
        unfold invoke_with_retry_go
        cases h1 : invoke 1 with
        | ok a => simp [countTryEvents]
        | error e1 =>
          by_cases ht1 : isTransientMsg e1
          · simp [ht1, invoke_with_retry_go, countTryEvents]
          · simp [ht1, countTryEvents]
      · simp [ht, countTryEvents]
  · intro a h0
    unfold invoke_with_retry
    rw [hrange]
    unfold invoke_with_retry_go
    simp [h0]
  · intro e h0 ht
    unfold invoke_with_retry
    rw [hrange]
    unfold invoke_with_retry_go
    simp [h0, ht]
  · intro e h0 ht
    unfold invoke_with_retry
    rw [hrange]
    unfold invoke_with_retry_go
    simp only [h0, ht, if_true]
    unfold invoke_with_retry_go
    cases h1 : invoke 1 with
    | ok a =>
      refine ⟨⟨[], by simp⟩, ?_, ?_⟩
      · intro a2 ha2
        cases ha2
        simp
      · intro e1 he1
        cases he1
    | error e1 =>
      by_cases ht1 : isTransientMsg e1
      · refine ⟨⟨[RetryEvent.sleep 3], by simp [ht1, invoke_with_retry_go]⟩, ?_, ?_⟩
        · intro a2 ha2
          cases ha2
        · intro e2 he2
          cases he2
          simp [ht1, invoke_with_retry_go]
      · refine ⟨⟨[], by simp [ht1]⟩, ?_, ?_⟩
        · intro a2 ha2
          cases ha2
        · intro e2 he2
          cases he2
          simp [ht1]

/-- Witness for C1 at concrete inputs: a first try failing with a rate-limit
message is retried (after a sleep) and the second error surfaces; a first
try failing with an invalid-key message is not retried. -/
theorem C1_retry_policy_witness :
    (invoke_with_retry (fun i => if i = 0 then Except.error "rate limit hit"
        else (Except.error "quota exceeded" : Except String Nat)) 1 3).result =
      Except.error "quota exceeded" ∧
    (invoke_with_retry (fun _ => (Except.error "invalid api key" : Except String Nat)) 1 3).events =
      [RetryEvent.tryCall 0] := by
  constructor
  · exact ((C1_retry_policy Nat (fun i => if i = 0 then Except.error "rate limit hit"
      else Except.error "quota exceeded")).2.2.2.1 "rate limit hit" (by rfl)
      (by decide)).2.2 "quota exceeded" (by rfl)
  · exact ((C1_retry_policy Nat (fun _ => Except.error "invalid api key")).2.2.1
      "invalid api key" (by rfl) (by decide)).2

/-- Helper: the fallback loop returns the first successful attempt's result
and starts exactly the attempts up to and including it. -/
theorem fallback_loop_first_success {α β : Type} (dflt : String) (f : α → Except String β)
    (l : List α) :
    ∀ (le : Option String) (k : Nat) (hk : k < l.length) (r : β),
    f (l.get ⟨k, hk⟩) = Except.ok r →
    (∀ i (hi : i < k), ∃ e, f (l.get ⟨i, Nat.lt_trans hi hk⟩) = Except.error e) →
    fallback_loop dflt f l le = ⟨Except.ok r, k + 1⟩ := by
  induction l with
  | nil =>
    intro le k hk
    exact absurd hk (by simp)
  | cons a rest ih =>
    intro le k hk r hsucc hfail
    cases k with
    | zero =>
      simp only [List.get] at hsucc
      simp [fallback_loop, hsucc]
    | succ k =>
      obtain ⟨e, he⟩ := hfail 0 (Nat.succ_pos k)
      simp only [List.get] at he
      have hk' : k < rest.length := Nat.lt_of_succ_lt_succ hk
      have hrec := ih (some e) k hk' r (by simpa using hsucc)
        (fun i hi => by simpa using hfail (i + 1) (Nat.succ_lt_succ hi))
      simp [fallback_loop, he, hrec]

/-- Helper: when every attempt fails, the fallback loop surfaces the last
attempt's error. -/
theorem fallback_loop_all_fail {α β : Type} (dflt : String) (f : α → Except String β)
    (l : List α) :
    ∀ (es : Nat → String),
    (∀ i (hi : i < l.length), f (l.get ⟨i, hi⟩) = Except.error (es i)) →
    ∀ le, l ≠ [] → (fallback_loop dflt f l le).result = Except.error (es (l.length - 1)) := by
  induction l with
  | nil =>
    intro es h le hne
    exact absurd rfl hne
  | cons a rest ih =>
    intro es h le _
    have ha : f a = Except.error (es 0) := by simpa using h 0 (Nat.succ_pos _)
    cases rest with
    | nil =>
      simp [fallback_loop, ha]
    | cons b bs =>
      have hrec := ih (fun i => es (i + 1))
        (fun i hi => by simpa using h (i + 1) (Nat.succ_lt_succ hi))
        (some (es 0)) (by simp)
      simp only [fallback_loop, ha]
      simpa using hrec

/-- Helper: a first-try non-transient error is the retry wrapper's error. -/
theorem retry_result_nontransient {α : Type} (invoke : Nat → Except String α) (e : String)
    (h0 : invoke 0 = Except.error e) (ht : isTransientMsg e = false) :
    (invoke_with_retry invoke 1 3).result = Except.error e := by
  unfold invoke_with_retry
  rw [show List.range 2 = [0, 1] by decide]
  unfold invoke_with_retry_go
  simp [h0, ht]

/-- Helper: a first-try non-transient error is the extraction attempt's
error. -/
theorem runAttempt_nontransient (parse : String → Except String Json)
    (invoke : Nat → Except String String) (e : String)
    (h0 : invoke 0 = Except.error e) (ht : isTransientMsg e = false) :
    runAttempt parse invoke = Except.error e := by
  unfold runAttempt
  rw [retry_result_nontransient invoke e h0 ht]

/-- C2: for a non-empty attempt sequence in which some attempt succeeds,
`extract_jobs` (and likewise `write_mail`) returns the first succeeding
attempt's parsed result and starts no further attempts after that success,
regardless of how many earlier attempts failed. -/
theorem C2_first_success :
    (∀ (parse : String → Except String Json)
      (invokes : List (Nat → Except String String))
      (k : Nat) (hk : k < invokes.length) (r : List Json),
      runAttempt parse (invokes.get ⟨k, hk⟩) = Except.ok r →
      (∀ i (hi : i < k), ∃ e,
        runAttempt parse (invokes.get ⟨i, Nat.lt_trans hi hk⟩) = Except.error e) →
      (extract_jobs parse invokes).result = Except.ok r ∧
      (extract_jobs parse invokes).attemptsMade = k + 1) ∧
    (∀ (invokes : List (Nat → Except String String))
      (k : Nat) (hk : k < invokes.length) (r : String),
      (invoke_with_retry (invokes.get ⟨k, hk⟩) 1 3).result = Except.ok r →
      (∀ i (hi : i < k), ∃ e,
        (invoke_with_retry (invokes.get ⟨i, Nat.lt_trans hi hk⟩) 1 3).result = Except.error e) →
      (write_mail invokes).result = Except.ok r ∧
      (write_mail invokes).attemptsMade = k + 1) := by
  constructor
  · intro parse invokes k hk r hsucc hfail
    have h := fallback_loop_first_success "Extraction failed on all providers."
      (runAttempt parse) invokes none k hk r hsucc hfail
    rw [extract_jobs, h]
    exact ⟨rfl, rfl⟩
  · intro invokes k hk r hsucc hfail
    have h := fallback_loop_first_success "Email writing failed on all providers."
      (fun invoke => (invoke_with_retry invoke 1 3).result) invokes none k hk r hsucc hfail
    rw [write_mail, h]
    exact ⟨rfl, rfl⟩

/-- Witness for C2 at a concrete input: with a failing first attempt and a
succeeding second attempt, extraction returns the second attempt's parsed
result after exactly two attempts. -/
theorem C2_first_success_witness :
    (extract_jobs (fun s => if s = "[]" then Except.ok (Json.arr []) else Except.error "parse")
      [fun _ => Except.error "invalid api key", fun _ => Except.ok "[]"]).result =
      Except.ok [] ∧
    (extract_jobs (fun s => if s = "[]" then Except.ok (Json.arr []) else Except.error "parse")
      [fun _ => Except.error "invalid api key", fun _ => Except.ok "[]"]).attemptsMade = 2 := by
  exact C2_first_success.1
    (fun s => if s = "[]" then Except.ok (Json.arr []) else Except.error "parse")
    [fun _ => Except.error "invalid api key", fun _ => Except.ok "[]"]
    1 (by decide) [] (by rfl)
    (fun i hi => by
      cases i with
      | zero => exact ⟨"invalid api key", by rfl⟩
      | succ n => exact absurd hi (by omega))

/-- C3: when every attempt in a non-empty sequence fails at its first try
with a non-transient error, the fallback chain (`extract_jobs`,
`write_mail`) fails, surfacing the error of the last attempt in the
sequence. -/
theorem C3_exhaustion :
    (∀ (parse : String → Except String Json)
      (invokes : List (Nat → Except String String)) (es : Nat → String),
      invokes ≠ [] →
      (∀ i (hi : i < invokes.length),
        (invokes.get ⟨i, hi⟩) 0 = Except.error (es i) ∧ isTransientMsg (es i) = false) →
      (extract_jobs parse invokes).result = Except.error (es (invokes.length - 1))) ∧
    (∀ (invokes : List (Nat → Except String String)) (es : Nat → String),
      invokes ≠ [] →
      (∀ i (hi : i < invokes.length),
        (invokes.get ⟨i, hi⟩) 0 = Except.error (es i) ∧ isTransientMsg (es i) = false) →
      (write_mail invokes).result = Except.error (es (invokes.length - 1))) := by
  constructor
  · intro parse invokes es hne h
    exact fallback_loop_all_fail "Extraction failed on all providers."
      (runAttempt parse) invokes es
      (fun i hi => runAttempt_nontransient parse _ (es i) (h i hi).1 (h i hi).2)
      none hne
  · intro invokes es hne h
    exact fallback_loop_all_fail "Email writing failed on all providers."
      (fun invoke => (invoke_with_retry invoke 1 3).result) invokes es
      (fun i hi => retry_result_nontransient _ (es i) (h i hi).1 (h i hi).2)
      none hne

/-- Witness for C3 at a concrete input: two attempts failing with
non-transient errors make `write_mail` surface the second error. -/
theorem C3_exhaustion_witness :
    (write_mail [fun _ => Except.error "invalid api key",
      fun _ => Except.error "model not found"]).result =
      Except.error "model not found" := by
  exact C3_exhaustion.2
    [fun _ => Except.error "invalid api key", fun _ => Except.error "model not found"]
    (fun i => if i = 0 then "invalid api key" else "model not found")
    (by simp)
    (fun i hi => by
      cases i with
      | zero => exact ⟨by rfl, by decide⟩
      | succ n =>
        cases n with
        | zero => exact ⟨by rfl, by decide⟩
        | succ m => exact absurd hi (by simp))

/-- C7: a successful extraction attempt parses the provider output as JSON
and coerces it to a list: an already-list value is returned unchanged, any
other top-level value is wrapped in a single-element list. -/
theorem C7_json_coercion :
    (∀ (parse : String → Except String Json) (invoke : Nat → Except String String)
      (content : String) (j : Json),
      (invoke_with_retry invoke 1 3).result = Except.ok content →
      parse content = Except.ok j →
      runAttempt parse invoke = Except.ok (json_to_list j)) ∧
    (∀ l, json_to_list (Json.arr l) = l) ∧
    (∀ j, (∀ l, j ≠ Json.arr l) → json_to_list j = [j]) := by
  refine ⟨?_, fun l => rfl, ?_⟩
  · intro parse invoke content j h1 h2
    unfold runAttempt
    rw [h1]
    dsimp only
    rw [h2]
  · intro j hj
    cases j with
    | arr l => exact absurd rfl (hj l)
    | obj l => rfl
    | str s => rfl
    | num n => rfl
    | bool b => rfl
    | null => rfl

/-- Witness for C7 at a concrete input: a single-object JSON output is
wrapped in a one-element list. -/
theorem C7_json_coercion_witness :
    runAttempt (fun _ => Except.ok (Json.obj [])) (fun _ => Except.ok "{}") =
      Except.ok [Json.obj []] := by
  exact C7_json_coercion.1 (fun _ => Except.ok (Json.obj []))
    (fun _ => Except.ok "{}") "{}" (Json.obj []) (by rfl) (by rfl)

/-- C5: credential resolution — the fast and heavy slots each fall back to
the base credential when their own slot is unset (so with only the base key
set, both tiers use it), and `Chain` construction fails (before any network
call, since construction is pure) exactly when all four credential slots
resolve empty. -/
theorem C5_credentials (env : Env) :
    (env.GROQ_API_KEY_FAST = "" → ∀ c, Chain.init env = Except.ok c →
      c.fast_key = env.GROQ_API_KEY) ∧
    (env.GROQ_API_KEY_HEAVY = "" → ∀ c, Chain.init env = Except.ok c →
      c.heavy_key = env.GROQ_API_KEY) ∧
    ((∃ e, Chain.init env = Except.error e) ↔
      (env.GROQ_API_KEY = "" ∧ env.GROQ_API_KEY_FAST = "" ∧
       env.GROQ_API_KEY_HEAVY = "" ∧ env.GEMINI_API_KEY = "")) := by
  refine ⟨?_, ?_, ?_⟩
  · intro hf c hc
    by_cases hb : env.GROQ_API_KEY = "" <;>
    by_cases hh : env.GROQ_API_KEY_HEAVY = "" <;>
    by_cases hg : env.GEMINI_API_KEY = "" <;>
    simp [Chain.init, pyOrStr, hf, hb, hh, hg] at hc <;>
    simp [← hc, hb]
  · intro hh c hc
    by_cases hb : env.GROQ_API_KEY = "" <;>
    by_cases hf : env.GROQ_API_KEY_FAST = "" <;>
    by_cases hg : env.GEMINI_API_KEY = "" <;>
    simp [Chain.init, pyOrStr, hh, hb, hf, hg] at hc <;>
    simp [← hc, hb]
  · by_cases hb : env.GROQ_API_KEY = "" <;>
    by_cases hf : env.GROQ_API_KEY_FAST = "" <;>
    by_cases hh : env.GROQ_API_KEY_HEAVY = "" <;>
    by_cases hg : env.GEMINI_API_KEY = "" <;>
    simp [Chain.init, pyOrStr, hb, hf, hh, hg]

/-- Witness for C5 at concrete inputs: with only the base key set, both the
fast and the heavy tier use the base key; with all four slots empty,
construction fails. -/
theorem C5_credentials_witness :
    (Chain.mk "base" "base" "" "llama-3.1-8b-instant" "llama-3.3-70b-versatile"
      "gemini-1.5-flash").fast_key = "base" ∧
    (Chain.mk "base" "base" "" "llama-3.1-8b-instant" "llama-3.3-70b-versatile"
      "gemini-1.5-flash").heavy_key = "base" ∧
    (∃ e, Chain.init ⟨"", "", "", ""⟩ = Except.error e) := by
  refine ⟨?_, ?_, ?_⟩
  · exact (C5_credentials ⟨"base", "", "", ""⟩).1 rfl
      (Chain.mk "base" "base" "" "llama-3.1-8b-instant" "llama-3.3-70b-versatile"
        "gemini-1.5-flash") (by rfl)
  · exact (C5_credentials ⟨"base", "", "", ""⟩).2.1 rfl
      (Chain.mk "base" "base" "" "llama-3.1-8b-instant" "llama-3.3-70b-versatile"
        "gemini-1.5-flash") (by rfl)
  · exact (C5_credentials ⟨"", "", "", ""⟩).2.2.mpr ⟨rfl, rfl, rfl, rfl⟩

/-- C8: the provider attempt sequence for extraction is, in order,
(fast model, heavy model, Gemini), and for email writing (heavy model,
fast model, Gemini), each filtered to attempts whose credential — and, for
Gemini, the optional package — is available. -/
theorem C8_attempt_order (c : Chain) (hg : Bool) :
    extract_attempts c hg =
      ([(Provider.groq, c.fast_key, c.fast_model),
        (Provider.groq, c.heavy_key, c.heavy_model),
        (Provider.gemini, c.gemini_key, c.gemini_model)].filter
        (fun a => a.2.1 != "" && (a.1 != Provider.gemini || hg))) ∧
    write_mail_attempts c hg =
      ([(Provider.groq, c.heavy_key, c.heavy_model),
        (Provider.groq, c.fast_key, c.fast_model),
        (Provider.gemini, c.gemini_key, c.gemini_model)].filter
        (fun a => a.2.1 != "" && (a.1 != Provider.gemini || hg))) := by
  have hgg : (Provider.groq == Provider.gemini) = false := rfl
  have hmm : (Provider.gemini == Provider.gemini) = true := rfl
  constructor <;>
  · cases hf : c.fast_key == "" <;>
    cases hh : c.heavy_key == "" <;>
    cases hgk : c.gemini_key == "" <;>
    cases hg <;>
    simp [extract_attempts, write_mail_attempts, List.filter, bne, hf, hh, hgk, hgg, hmm]

/-- Helper: `dropWhile` is idempotent. -/
theorem dropWhile_dropWhile (p : α → Bool) (l : List α) :
    (l.dropWhile p).dropWhile p = l.dropWhile p := by
  induction l with
  | nil => rfl
  | cons a as ih =>
    cases h : p a <;> simp [List.dropWhile_cons, h, ih]

/-- Helper: the head of a `dropWhile` result fails the predicate. -/
theorem head?_dropWhile_false (p : α → Bool) (l : List α) :
    ∀ c, (l.dropWhile p).head? = some c → p c = false := by
  induction l with
  | nil => intro c hc; cases hc
  | cons a as ih =>
    intro c hc
    cases h : p a
    · rw [List.dropWhile_cons, h] at hc
      simp only [Bool.false_eq_true, if_false, List.head?_cons, Option.some.injEq] at hc
      rw [← hc]
      exact h
    · rw [List.dropWhile_cons, h] at hc
      simp only [if_true] at hc
      exact ih c hc

/-- Helper: a list whose head fails the predicate is fixed by
`dropWhile`. -/
theorem dropWhile_eq_self_of_head (p : α → Bool) (l : List α)
    (h : ∀ c, l.head? = some c → p c = false) : l.dropWhile p = l := by
  cases l with
  | nil => rfl
  | cons a as => simp [List.dropWhile_cons, h a rfl]

/-- Helper: a non-empty `dropWhile` result keeps the original last
element. -/
theorem getLast?_dropWhile (p : α → Bool) (l : List α)
    (h : l.dropWhile p ≠ []) : (l.dropWhile p).getLast? = l.getLast? := by
  induction l with
  | nil => exact absurd rfl h
  | cons a as ih =>
    cases hp : p a
    · rw [List.dropWhile_cons, hp]
      simp
    · rw [List.dropWhile_cons, hp] at h ⊢
      simp only [if_true] at h ⊢
      have has : as ≠ [] := by
        intro hnil
        rw [hnil] at h
        exact h rfl
      rw [ih h]
      cases as with
      | nil => exact absurd rfl has
      | cons b bs => simp [List.getLast?_cons_cons]

/-- Helper: `stripChars` is idempotent. -/
theorem stripChars_idem (l : List Char) : stripChars (stripChars l) = stripChars l := by
  set p := isSpaceChar with hp
  set A := l.dropWhile p with hA
  set B := A.reverse.dropWhile p with hB
  have hstrip : stripChars l = B.reverse := rfl
  have hDR : B.reverse.dropWhile p = B.reverse := by
    apply dropWhile_eq_self_of_head
    intro c hc
    rw [List.head?_reverse] at hc
    by_cases hBn : B = []
    · rw [hBn] at hc
      cases hc
    · rw [hB, getLast?_dropWhile p A.reverse (by rw [← hB]; exact hBn)] at hc
      rw [List.getLast?_reverse] at hc
      exact head?_dropWhile_false p l c (by rw [← hA]; exact hc)
  rw [hstrip]
  show ((B.reverse.dropWhile p).reverse.dropWhile p).reverse = B.reverse
  rw [hDR, List.reverse_reverse, hB, dropWhile_dropWhile]

/-- Helper: `pyStrip` is idempotent. -/
theorem pyStrip_idem (s : String) : pyStrip (pyStrip s) = pyStrip s := by
  show (⟨stripChars (String.data ⟨stripChars s.data⟩)⟩ : String) = ⟨stripChars s.data⟩
  rw [show String.data ⟨stripChars s.data⟩ = stripChars s.data from rfl, stripChars_idem]

/-- Helper: a list with no whitespace anywhere is fixed by `stripChars`. -/
theorem stripChars_eq_self_of_no_space (l : List Char)
    (h : ∀ c ∈ l, isSpaceChar c = false) : stripChars l = l := by
  rw [stripChars]
  rw [dropWhile_eq_self_of_head isSpaceChar l
    (fun c hc => h c (List.mem_of_mem_head? hc))]
  rw [dropWhile_eq_self_of_head isSpaceChar l.reverse
    (fun c hc => h c (List.mem_reverse.mp (List.mem_of_mem_head? hc)))]
  exact List.reverse_reverse l

/-- Helper: a string with no whitespace anywhere is fixed by `pyStrip`. -/
theorem pyStrip_eq_self_of_no_space (s : String)
    (h : ∀ c ∈ s.data, isSpaceChar c = false) : pyStrip s = s := by
  show (⟨stripChars s.data⟩ : String) = s
  rw [stripChars_eq_self_of_no_space s.data h]

/-- Helper: every character produced by `natDigitsAux` is a digit. -/
theorem natDigitsAux_digits :
    ∀ fuel n, ∀ c ∈ natDigitsAux fuel n, ∃ d, d < 10 ∧ c = digitChar d := by
  intro fuel
  induction fuel with
  | zero => intro n c hc; cases hc
  | succ fuel ih =>
    intro n c hc
    rw [natDigitsAux] at hc
    by_cases hn : n = 0
    · rw [if_pos hn] at hc
      cases hc
    · rw [if_neg hn] at hc
      rcases List.mem_append.mp hc with h | h
      · exact ih (n / 10) c h
      · rcases List.mem_singleton.mp h with rfl
        exact ⟨n % 10, Nat.mod_lt n (by omega), rfl⟩

/-- Helper: digit characters are not whitespace. -/
theorem digitChar_not_space (d : Nat) (hd : d < 10) :
    isSpaceChar (digitChar d) = false := by
  interval_cases d <;> decide

/-- Helper: the decimal rendering of a natural number contains no
whitespace. -/
theorem natStr_no_space (n : Nat) : ∀ c ∈ (natStr n).data, isSpaceChar c = false := by
  intro c hc
  rw [natStr] at hc
  by_cases hn : n = 0
  · rw [if_pos hn] at hc
    rcases List.mem_singleton.mp (by simpa using hc) with rfl
    decide
  · rw [if_neg hn] at hc
    obtain ⟨d, hd, rfl⟩ := natDigitsAux_digits n n c hc
    exact digitChar_not_space d hd

/-- Helper: the decimal rendering of a natural number is non-empty. -/
theorem natStr_ne_empty (n : Nat) : natStr n ≠ "" := by
  rw [natStr]
  by_cases hn : n = 0
  · rw [if_pos hn]
    decide
  · rw [if_neg hn]
    intro hcontra
    have hdata : natDigitsAux n n = [] := congrArg String.data hcontra
    cases n with
    | zero => exact hn rfl
    | succ m =>
      rw [natDigitsAux, if_neg hn] at hdata
      exact absurd hdata (by simp)

/-- Helper: the decimal rendering of an integer contains no whitespace. -/
theorem intStr_no_space (n : Int) : ∀ c ∈ (intStr n).data, isSpaceChar c = false := by
  intro c hc
  cases n with
  | ofNat m => exact natStr_no_space m c hc
  | negSucc m =>
    rw [intStr, String.data_append] at hc
    rcases List.mem_append.mp hc with h | h
    · rcases List.mem_singleton.mp (by simpa using h) with rfl
      decide
    · exact natStr_no_space (m + 1) c h

/-- Helper: the decimal rendering of an integer is non-empty. -/
theorem intStr_ne_empty (n : Int) : intStr n ≠ "" := by
  cases n with
  | ofNat m => exact natStr_ne_empty m
  | negSucc m =>
    rw [intStr]
    intro hcontra
    have hdata : ("-" ++ natStr (m + 1)).data = [] := congrArg String.data hcontra
    rw [String.data_append] at hdata
    exact absurd hdata (by simp)

/-- Helper: every element of a `normalize_skills` output is stripped and
non-empty. -/
theorem normalize_skills_elems (v : PyVal) :
    ∀ t ∈ normalize_skills v, pyStrip t = t ∧ (t == "") = false := by
  cases v with
  | str s =>
    intro t ht
    simp only [normalize_skills] at ht
    have hmem := (List.mem_filter.mp ht).1
    have hq := (List.mem_filter.mp ht).2
    obtain ⟨x, _, rfl⟩ := List.mem_map.mp hmem
    exact ⟨pyStrip_idem x, by simpa using hq⟩
  | list l =>
    intro t ht
    simp only [normalize_skills] at ht
    have hmem := (List.mem_filter.mp ht).1
    have hq := (List.mem_filter.mp ht).2
    obtain ⟨x, _, rfl⟩ := List.mem_map.mp hmem
    exact ⟨pyStrip_idem (pyStr x), by simpa using hq⟩
  | int n =>
    intro t ht
    rcases List.mem_singleton.mp ht with rfl
    refine ⟨pyStrip_eq_self_of_no_space _ (intStr_no_space n), ?_⟩
    have := intStr_ne_empty n
    simpa [pyStr, pyRepr] using this
  | bool b =>
    intro t ht
    cases b <;> rcases List.mem_singleton.mp ht with rfl <;> exact ⟨by decide, by decide⟩
  | none =>
    intro t ht
    rcases List.mem_singleton.mp ht with rfl
    exact ⟨by decide, by decide⟩

/-- Helper: feeding a list of stripped non-empty strings back through
`normalize_skills` returns it unchanged. -/
theorem normalize_again (out : List String)
    (h : ∀ t ∈ out, pyStrip t = t ∧ (t == "") = false) :
    normalize_skills (PyVal.list (out.map PyVal.str)) = out := by
  simp only [normalize_skills, List.map_map]
  have hmap : out.map (fun t => pyStrip (pyStr (PyVal.str t))) = out := by
    have hcongr := List.map_congr_left (l := out)
      (f := fun t => pyStrip (pyStr (PyVal.str t))) (g := id)
      (fun a ha => (h a ha).1)
    rw [hcongr, List.map_id]
  rw [show ((fun x => pyStrip (pyStr x)) ∘ PyVal.str) =
    (fun t => pyStrip (pyStr (PyVal.str t))) from rfl]
  rw [hmap]
  exact List.filter_eq_self.mpr (fun a ha => by simp [(h a ha).2])

/-- C6: `normalize_skills` is total (it is a Lean function on all modelled
Python values) and idempotent — re-normalizing its own output (injected
back as a Python list of strings) returns the same list — and maps
"Python, SQL" to ["Python", "SQL"], the list ["Python", " SQL "] to
["Python", "SQL"], the integer 42 to ["42"], and both "" and [] to []. -/
theorem C6_normalize_skills :
    (∀ v, normalize_skills (PyVal.list ((normalize_skills v).map PyVal.str)) =
      normalize_skills v) ∧
    normalize_skills (PyVal.str "Python, SQL") = ["Python", "SQL"] ∧
    normalize_skills (PyVal.list [PyVal.str "Python", PyVal.str " SQL "]) =
      ["Python", "SQL"] ∧
    normalize_skills (PyVal.int 42) = ["42"] ∧
    normalize_skills (PyVal.str "") = [] ∧
    normalize_skills (PyVal.list []) = [] := by
  refine ⟨fun v => normalize_again (normalize_skills v) (normalize_skills_elems v),
    ?_, ?_, ?_, ?_, ?_⟩ <;> decide

/-- Helper: `find?` commutes with a filter that keeps everything the
search predicate accepts. -/
theorem find?_filter_of_imp (l : List (String × PyVal)) (q r : String × PyVal → Bool)
    (h : ∀ p, q p = true → r p = true) :
    List.find? q (List.filter r l) = List.find? q l := by
  induction l with
  | nil => rfl
  | cons a as ih =>
    cases hq : q a
    · cases hr : r a
      · rw [List.filter_cons, hr]
        simp only [Bool.false_eq_true, if_false]
        rw [ih, List.find?_cons_of_neg _ (by simp [hq])]
      · rw [List.filter_cons, hr]
        simp only [if_true]
        rw [List.find?_cons_of_neg _ (by simp [hq]), List.find?_cons_of_neg _ (by simp [hq]), ih]
    · have hra := h a hq
      rw [List.filter_cons, hra]
      simp only [if_true]
      rw [List.find?_cons_of_pos _ hq, List.find?_cons_of_pos _ hq]

/-- Helper: looking up the key just set returns the new value. -/
theorem dictGet_set_self (d : PyDict) (k : String) (v : PyVal) :
    dictGet (dictSet d k v) k = some v := by
  rw [dictGet, dictSet, List.find?_cons_of_pos _ (by simp)]

/-- Helper: looking up another key ignores a set. -/
theorem dictGet_set_ne (d : PyDict) (k k2 : String) (v : PyVal) (h : k ≠ k2) :
    dictGet (dictSet d k2 v) k = dictGet d k := by
  rw [dictGet, dictSet, List.find?_cons_of_neg _ (by simp [Ne.symm h])]
  rw [find?_filter_of_imp d (fun p => p.1 == k) (fun p => !(p.1 == k2))
    (fun p hp => by
      have : p.1 = k := by simpa using hp
      simp [this, h])]
  rfl

/-- C4 counterexample: the claim that every job dict passed to `write_mail`
carries all four core fields fails at the concrete extracted job `{}` — the
dict handed to the email step has no `role` key, and a `generate` run whose
email step reports whether `role` is present observes it missing. -/
theorem C4_counterexample :
    dictGet (mailInput "Confident" "Request an Interview" ([] : PyDict)) "role" =
      Option.none ∧
    (generate200 "https://example.com/careers" "Confident" "Request an Interview"
      (some [([] : PyDict)])
      (fun j => match dictGet j "role" with
        | some _ => "role present"
        | Option.none => "role missing")
      "email.md").results.map (fun r => r.email_markdown) = ["role missing"] := by
  exact ⟨rfl, rfl⟩

/-- C4 (amended): the defaults for the four core fields are applied only to
the HTTP result record; the dict passed to `write_mail` is the raw
extracted job with exactly `tone` and `cta` added (other keys unchanged),
so a core field absent from the extracted job is absent from the dict the
email step receives. -/
theorem C4_mail_input (tone cta : String) (job : PyDict) :
    dictGet (mailInput tone cta job) "cta" = some (PyVal.str cta) ∧
    dictGet (mailInput tone cta job) "tone" = some (PyVal.str tone) ∧
    (∀ k, k ≠ "tone" → k ≠ "cta" → dictGet (mailInput tone cta job) k = dictGet job k) ∧
    (∀ wm dn,
      (mkResultRecord tone cta wm dn job).role =
        dictGetD job "role" (PyVal.str "Software Engineer") ∧
      (mkResultRecord tone cta wm dn job).experience =
        dictGetD job "experience" (PyVal.str "N/A") ∧
      (mkResultRecord tone cta wm dn job).description =
        dictGetD job "description" (PyVal.str "") ∧
      (mkResultRecord tone cta wm dn job).skills =
        normalize_skills (dictGetD job "skills" (PyVal.list [])) ∧
      (mkResultRecord tone cta wm dn job).email_markdown =
        wm (mailInput tone cta job)) := by
  refine ⟨dictGet_set_self _ _ _, ?_, ?_, fun wm dn => ⟨rfl, rfl, rfl, rfl, rfl⟩⟩
  · rw [mailInput, dictGet_set_ne _ _ _ _ (by decide), dictGet_set_self]
  · intro k hk1 hk2
    rw [mailInput, dictGet_set_ne _ _ _ _ hk2, dictGet_set_ne _ _ _ _ hk1]

/-- Witness for C4 (amended) at a concrete input: a key other than `tone`
and `cta` is looked up unchanged through the mail input dict. -/
theorem C4_mail_input_witness :
    dictGet (mailInput "Confident" "Request an Interview"
      [("role", PyVal.str "Backend Engineer")]) "role" =
      dictGet [("role", PyVal.str "Backend Engineer")] "role" := by
  exact (C4_mail_input "Confident" "Request an Interview"
    [("role", PyVal.str "Backend Engineer")]).2.2.1 "role" (by decide) (by decide)

/-- Helper: the validation prologue of `generate` written as one
conditional. -/
theorem generateDispatch_eq (body : RequestBody) :
    generateDispatch body =
      (if pyStrip (pyOrOpt body.url "") == "" ||
          !(URL_RE_match (pyStrip (pyOrOpt body.url ""))) then
        GenOutcome.badRequest "Provide a valid http(s) URL in \x27url\x27."
      else
        GenOutcome.proceed (pyStrip (pyOrOpt body.url ""))
          (pyOrOpt body.tone "Confident") (pyOrOpt body.cta "Request an Interview")) := rfl

/-- C9: `POST /generate` answers 400 with an error string exactly when the
request body's url is missing, empty after stripping, or does not match
the case-insensitive pattern for an http(s) scheme; the pipeline values
(fetch, extraction, email) are produced only in the non-400 case, with a
non-empty matching url. -/
theorem C9_url_validation (body : RequestBody) :
    ((∃ e, generateDispatch body = GenOutcome.badRequest e) ↔
      (body.url = Option.none ∨ pyStrip (pyOrOpt body.url "") = "" ∨
        URL_RE_match (pyStrip (pyOrOpt body.url "")) = false)) ∧
    (∀ e, generateDispatch body = GenOutcome.badRequest e →
      e = "Provide a valid http(s) URL in \x27url\x27.") ∧
    (∀ u t c2, generateDispatch body = GenOutcome.proceed u t c2 →
      u ≠ "" ∧ URL_RE_match u = true) := by
  rw [generateDispatch_eq body]
  cases hcond : (pyStrip (pyOrOpt body.url "") == "" ||
      !(URL_RE_match (pyStrip (pyOrOpt body.url "")))) with
  | true =>
    rcases Bool.or_eq_true_iff.mp hcond with h | h
    · refine ⟨?_, ?_, ?_⟩
      · simp only [if_true]
        constructor
        · intro _
          right
          left
          exact eq_of_beq h
        · intro _
          exact ⟨_, rfl⟩
      · intro e he
        simp only [if_true] at he
        cases he
        rfl
      · intro u t c2 he
        simp only [if_true] at he
        cases he
    · refine ⟨?_, ?_, ?_⟩
      · simp only [if_true]
        constructor
        · intro _
          right
          right
          simpa using h
        · intro _
          exact ⟨_, rfl⟩
      · intro e he
        simp only [if_true] at he
        cases he
        rfl
      · intro u t c2 he
        simp only [if_true] at he
        cases he
  | false =>
    have hne : pyStrip (pyOrOpt body.url "") ≠ "" := by
      intro hcontra
      rw [hcontra] at hcond
      simp at hcond
    have hmatch : URL_RE_match (pyStrip (pyOrOpt body.url "")) = true := by
      rcases Bool.or_eq_false_iff.mp hcond with ⟨_, h2⟩
      simpa using h2
    refine ⟨?_, ?_, ?_⟩
    · simp only [Bool.false_eq_true, if_false]
      constructor
      · rintro ⟨e, he⟩
        cases he
      · intro h
        rcases h with h | h | h
        · exfalso
          apply hne
          rw [h]
          rfl
        · exact absurd h hne
        · rw [hmatch] at h
          cases h
    · intro e he
      simp only [Bool.false_eq_true, if_false] at he
      cases he
    · intro u t c2 he
      simp only [Bool.false_eq_true, if_false] at he
      cases he
      exact ⟨hne, hmatch⟩

/-- Witness for C9 at concrete inputs: a body with url "not-a-url" is
rejected with 400, and a body with an https url proceeds with a matching
url. -/
theorem C9_url_validation_witness :
    (∃ e, generateDispatch ⟨some "not-a-url", Option.none, Option.none⟩ =
      GenOutcome.badRequest e) ∧
    URL_RE_match "https://example.com/careers" = true := by
  constructor
  · exact (C9_url_validation ⟨some "not-a-url", Option.none, Option.none⟩).1.mpr
      (Or.inr (Or.inr (by decide)))
  · exact ((C9_url_validation ⟨some "https://example.com/careers", Option.none,
      Option.none⟩).2.2 "https://example.com/careers" "Confident"
      "Request an Interview" (by rfl)).2

/-- C10: in every 200 response of `POST /generate`, `count` equals the
length of `results`; there is exactly one result per job returned by
extraction (a `None` or empty extraction yields count 0 and an empty
array); and each result's `skills` equals `normalize_skills` of that job's
`skills` value, defaulting to the empty list when absent. -/
theorem C10_response_shape (url tone cta : String) (extracted : Option (List PyDict))
    (wm : PyDict → String) (dn : String) :
    (generate200 url tone cta extracted wm dn).count =
      (generate200 url tone cta extracted wm dn).results.length ∧
    (generate200 url tone cta extracted wm dn).results.length =
      (pyOrJobs extracted).length ∧
    ((extracted = Option.none ∨ extracted = some []) →
      (generate200 url tone cta extracted wm dn).count = 0 ∧
      (generate200 url tone cta extracted wm dn).results = []) ∧
    (∀ i (hi : i < (pyOrJobs extracted).length)
      (hi2 : i < (generate200 url tone cta extracted wm dn).results.length),
      ((generate200 url tone cta extracted wm dn).results.get ⟨i, hi2⟩).skills =
        normalize_skills
          (dictGetD ((pyOrJobs extracted).get ⟨i, hi⟩) "skills" (PyVal.list []))) := by
  refine ⟨rfl, by simp [generate200], ?_, ?_⟩
  · rintro (h | h) <;> rw [h] <;> exact ⟨rfl, rfl⟩
  · intro i hi hi2
    show ((List.map (mkResultRecord tone cta wm dn) (pyOrJobs extracted)).get
      ⟨i, by simpa [generate200] using hi2⟩).skills = _
    rw [List.get_map]
    rfl

/-- Witness for C10 at concrete inputs: a one-job extraction with skills
"Go, Postgres" yields one result whose skills are ["Go", "Postgres"], and
an empty extraction yields count 0. -/
theorem C10_response_shape_witness :
    ((generate200 "https://example.com/careers" "Confident" "Request an Interview"
      (some [[("skills", PyVal.str "Go, Postgres")]])
      (fun _ => "Subject: hello") "email.md").results.get
        ⟨0, by decide⟩).skills = ["Go", "Postgres"] ∧
    (generate200 "https://example.com/careers" "Confident" "Request an Interview"
      (some ([] : List PyDict)) (fun _ => "Subject: hello") "email.md").count = 0 := by
  constructor
  · exact ((C10_response_shape "https://example.com/careers" "Confident"
      "Request an Interview" (some [[("skills", PyVal.str "Go, Postgres")]])
      (fun _ => "Subject: hello") "email.md").2.2.2 0 (by decide) (by decide)).trans
      (by decide)
  · exact ((C10_response_shape "https://example.com/careers" "Confident"
      "Request an Interview" (some ([] : List PyDict))
      (fun _ => "Subject: hello") "email.md").2.2.1 (Or.inr rfl)).1
